import Mathlib

/-!
Verification of the windowed result-delivery core of Emby.MCP
(`src/emby_mcp_server.py`, functions `search_for_item` and
`retrieve_next_search_chunk`).

The stored chunking state `auth_context['search_item_chunking']` is a Python
dict; an empty dict means "no session".  We model it as `Option (Session α)`:
`none` is the empty dict, `some s` a non-empty dict whose recognised keys are
the fields of `Session`.  Items are opaque payloads (type parameter `α`).
Responses are modelled at the level of the JSON document content that the
Python code builds with `json.dumps`: either the empty document `{}`, a
six-field chunk document, or an error document.  A Python exception
(e.g. `IndexError` from `items[counter]`) is modelled by `Option.none` as the
overall result of an operation.
-/

/-- One page of results plus pagination metadata, as returned to the caller
(the six-field JSON document built by the source). -/
structure ChunkView (α : Type) where
  search_id : String
  total_number_of_items : Int
  chunk_size : Int
  chunk_number : Int
  more_chunks_available : Bool
  items : List α
deriving DecidableEq, Repr

/-- The stored chunking dict `auth_context['search_item_chunking']` when it is
non-empty.  Each recognised key may be absent (`none`); the `items` key
defaults to the empty list in the source's extraction loop, so a missing
`items` key and an empty stored list are indistinguishable to the code. -/
structure Session (α : Type) where
  search_id : Option String := none
  total_number_of_items : Option Int := none
  chunk_size : Option Int := none
  chunk_number : Option Int := none
  more_chunks_available : Option Bool := none
  items : List α := []
deriving DecidableEq, Repr

/-- The JSON document content returned by the two tool functions. -/
inductive Response (α : Type) where
  /-- `json.dumps(\x7b\x7d)`: the empty document with no fields at all. -/
  | emptyDoc : Response α
  /-- A six-field chunk document. -/
  | chunk : ChunkView α → Response α
  /-- An error document `\x7b'error': msg\x7d`. -/
  | error : String → Response α
deriving DecidableEq, Repr

/-- Python list indexing `L[i]` with an `int` index: a negative index counts
from the end; an out-of-range index raises (modelled as `none`). -/
def pyIndex {α : Type} (L : List α) (i : Int) : Option α :=
  let j : Int := if i < 0 then i + L.length else i
  if 0 ≤ j then L[j.toNat]? else none

/-- The extraction loop `for counter in range(chunk_start, chunk_end, 1):
chunk_items.append(items[counter])`, with `count` iterations starting at
index `start`.  Any out-of-range access raises (`none`). -/
def pySlice {α : Type} (L : List α) (start : Int) : Nat → Option (List α)
  | 0 => some []
  | n + 1 =>
    match pyIndex L start, pySlice L (start + 1) n with
    | some x, some rest => some (x :: rest)
    | _, _ => none

/-- The function `retrieve_next_search_chunk` (src/emby_mcp_server.py lines
481-568), as a function of the stored chunking state.  Returns the response
document together with the new stored state, or `none` when the Python code
would raise an exception. -/
def retrieve_next_search_chunk {α : Type} (st : Option (Session α)) :
    Option (Response α × Option (Session α)) :=
  match st with
  | none => some (.emptyDoc, none)
  | some s =>
    match s.total_number_of_items, s.chunk_size, s.chunk_number with
    | some total_items, some nominal_size, some stored_number =>
      if total_items ≤ 0 ∨ (s.items.length : Int) ≤ 0 ∨ nominal_size ≤ 0 ∨
          stored_number < 0 then
        some (.chunk ⟨s.search_id.getD "", 0, 0, 0, false, []⟩, none)
      else
        let chunk_start := stored_number * nominal_size
        let remaining_items := total_items - chunk_start
        if 0 < remaining_items then
          if nominal_size < remaining_items then
            let chunk_end := chunk_start + nominal_size
            match pySlice s.items chunk_start (chunk_end - chunk_start).toNat with
            | some chunk_items =>
              some (.chunk ⟨s.search_id.getD "", total_items, nominal_size,
                  stored_number + 1, true, chunk_items⟩,
                some { s with more_chunks_available := some true,
                              chunk_number := some (stored_number + 1) })
            | none => none
          else
            let chunk_end := chunk_start + remaining_items
            match pySlice s.items chunk_start (chunk_end - chunk_start).toNat with
            | some chunk_items =>
              some (.chunk ⟨s.search_id.getD "", total_items, remaining_items,
                  stored_number + 1, false, chunk_items⟩, none)
            | none => none
        else
          some (.chunk ⟨s.search_id.getD "", total_items, 0, stored_number,
              false, []⟩, none)
    | _, _, _ => some (.emptyDoc, none)

/-- The windowing core of `search_for_item` (src/emby_mcp_server.py lines
407-436), as a function of the window size `max_chunk_size`, the upstream
catalog result `item_list` (`Except.error` when `item_list['success']` is
false), the freshly generated `search_id`, and the previously stored state. -/
def search_for_item {α : Type} (max_chunk_size : Int)
    (item_list : Except String (List α)) (search_id : String)
    (st : Option (Session α)) : Option (Response α × Option (Session α)) :=
  match item_list with
  | .error err =>
    some (.error ("ERROR: failed to retrieve item list because: " ++ err), st)
  | .ok its =>
    let total_items : Int := its.length
    let nominal_size : Int :=
      if max_chunk_size < total_items then max_chunk_size else total_items
    if 0 < max_chunk_size ∧ max_chunk_size < total_items then
      retrieve_next_search_chunk (some
        { search_id := some search_id
          total_number_of_items := some total_items
          chunk_size := some nominal_size
          chunk_number := some 0
          more_chunks_available := some true
          items := its })
    else
      some (.chunk ⟨search_id, total_items, nominal_size, 1, false, its⟩, none)

/-- Repeatedly call `retrieve_next_search_chunk`, collecting the chunk
documents it delivers, stopping after `fuel` calls or as soon as a call
returns something other than a chunk document. -/
def runChunks {α : Type} : Nat → Option (Session α) → List (ChunkView α)
  | 0, _ => []
  | fuel + 1, st =>
    match retrieve_next_search_chunk st with
    | some (.chunk c, st1) => c :: runChunks fuel st1
    | _ => []

/-- The items carried by a response document. -/
def respItems {α : Type} : Response α → List α
  | .chunk c => c.items
  | _ => []

/-- Explicit description of the sequence of pages delivered from a healthy
session over list `L` with window `W`, starting at stored chunk counter `k`,
within `fuel` calls.  Used as the closed form that `runChunks` is proved
equal to. -/
def chunkListF {α : Type} (sid : String) (L : List α) (W : Nat) :
    Nat → Nat → List (ChunkView α)
  | 0, _ => []
  | fuel + 1, k =>
    if k * W < L.length then
      if L.length - k * W ≤ W then
        [⟨sid, (L.length : Int), ((L.length - k * W : Nat) : Int),
          (k : Int) + 1, false, (L.drop (k * W)).take (L.length - k * W)⟩]
      else
        ⟨sid, (L.length : Int), (W : Int), (k : Int) + 1, true,
          (L.drop (k * W)).take W⟩ :: chunkListF sid L W fuel (k + 1)
    else []

lemma pyIndex_eq_get {α : Type} (L : List α) (a : Nat) (h : a < L.length) :
    pyIndex L (a : Int) = some (L.get ⟨a, h⟩) := by
  have hneg : ¬ ((a : Int) < 0) := by omega
  simp [pyIndex, hneg, List.getElem?_eq_getElem h]

lemma pySlice_eq_drop_take {α : Type} (L : List α) :
    ∀ (c a : Nat), a + c ≤ L.length →
    pySlice L (a : Int) c = some ((L.drop a).take c) := by
  intro c
  induction c with
  | zero => intro a h; simp [pySlice]
  | succ n ih =>
    intro a h
    have ha : a < L.length := by omega
    have hcast : (a : Int) + 1 = ((a + 1 : Nat) : Int) := by push_cast; ring
    rw [pySlice, pyIndex_eq_get L a ha, hcast, ih (a + 1) (by omega)]
    rw [List.drop_eq_getElem_cons ha, List.take_succ_cons]
    rfl

lemma pyIndex_mem {α : Type} (L : List α) (i : Int) (x : α)
    (h : pyIndex L i = some x) : x ∈ L := by
  unfold pyIndex at h
  by_cases h0 : (0 : Int) ≤ if i < 0 then i + L.length else i
  · rw [if_pos h0] at h
    exact List.getElem?_mem h
  · rw [if_neg h0] at h
    cases h

lemma pySlice_mem {α : Type} (L : List α) :
    ∀ (c : Nat) (i : Int) (out : List α),
    pySlice L i c = some out → ∀ x ∈ out, x ∈ L := by
  intro c
  induction c with
  | zero =>
    intro i out h x hx
    simp only [pySlice] at h
    cases h
    simp at hx
  | succ n ih =>
    intro i out h x hx
    simp only [pySlice] at h
    cases hidx : pyIndex L i with
    | none => rw [hidx] at h; simp at h
    | some y =>
      rw [hidx] at h
      cases hrest : pySlice L (i + 1) n with
      | none => rw [hrest] at h; simp at h
      | some rest =>
        rw [hrest] at h
        cases h
        rcases List.mem_cons.mp hx with rfl | hx2
        · exact pyIndex_mem L i x hidx
        · exact ih (i + 1) rest hrest x hx2

lemma retrieve_step_more {α : Type} (s : Session α) (W k : Nat)
    (htot : s.total_number_of_items = some (s.items.length : Int))
    (hsz : s.chunk_size = some (W : Int))
    (hnum : s.chunk_number = some (k : Int))
    (hW : 0 < W)
    (hmore : k * W + W < s.items.length) :
    retrieve_next_search_chunk (some s) =
      some (.chunk ⟨s.search_id.getD "", (s.items.length : Int), (W : Int),
          (k : Int) + 1, true, (s.items.drop (k * W)).take W⟩,
        some { s with more_chunks_available := some true,
                      chunk_number := some ((k : Int) + 1) }) := by
  have hmI : (k : Int) * (W : Int) + (W : Int) < (s.items.length : Int) := by
    exact_mod_cast hmore
  have hWI : (0 : Int) < (W : Int) := by exact_mod_cast hW
  simp only [retrieve_next_search_chunk, htot, hsz, hnum]
  rw [if_neg (by omega), if_pos (by omega), if_pos (by omega)]
  have hcast : ((k : Int)) * (W : Int) = ((k * W : Nat) : Int) := by
    push_cast; ring
  rw [hcast]
  have harg : (((k * W : Nat) : Int) + (W : Int) - ((k * W : Nat) : Int)).toNat
      = W := by omega
  rw [harg, pySlice_eq_drop_take s.items W (k * W) (by omega)]

lemma retrieve_step_last {α : Type} (s : Session α) (W k : Nat)
    (htot : s.total_number_of_items = some (s.items.length : Int))
    (hsz : s.chunk_size = some (W : Int))
    (hnum : s.chunk_number = some (k : Int))
    (hW : 0 < W)
    (hk : k * W < s.items.length)
    (hlast : s.items.length ≤ k * W + W) :
    retrieve_next_search_chunk (some s) =
      some (.chunk ⟨s.search_id.getD "", (s.items.length : Int),
          ((s.items.length - k * W : Nat) : Int), (k : Int) + 1, false,
          s.items.drop (k * W)⟩, none) := by
  have hkI : (k : Int) * (W : Int) < (s.items.length : Int) := by
    exact_mod_cast hk
  have hlI : (s.items.length : Int) ≤ (k : Int) * (W : Int) + (W : Int) := by
    exact_mod_cast hlast
  have hWI : (0 : Int) < (W : Int) := by exact_mod_cast hW
  simp only [retrieve_next_search_chunk, htot, hsz, hnum]
  rw [if_neg (by omega), if_pos (by omega), if_neg (by omega)]
  have hcast : ((k : Int)) * (W : Int) = ((k * W : Nat) : Int) := by
    push_cast; ring
  rw [hcast]
  have harg : (((k * W : Nat) : Int) +
      (((s.items.length : Nat) : Int) - ((k * W : Nat) : Int)) -
      ((k * W : Nat) : Int)).toNat = s.items.length - k * W := by omega
  rw [harg, pySlice_eq_drop_take s.items (s.items.length - k * W) (k * W)
    (by omega)]
  have htake : (s.items.drop (k * W)).take (s.items.length - k * W) =
      s.items.drop (k * W) := by
    have hld : (s.items.drop (k * W)).length = s.items.length - k * W :=
      List.length_drop _ _
    rw [← hld, List.take_length]
  rw [htake]
  have hsub : ((s.items.length : Nat) : Int) - ((k * W : Nat) : Int) =
      ((s.items.length - k * W : Nat) : Int) := by omega
  rw [hsub]

lemma runChunks_none {α : Type} : ∀ fuel, runChunks (α := α) fuel none = [] := by
  intro fuel
  cases fuel with
  | zero => rfl
  | succ n => rfl

lemma take_len_drop {α : Type} (L : List α) (n : Nat) :
    (L.drop n).take (L.length - n) = L.drop n := by
  have hld : (L.drop n).length = L.length - n := List.length_drop _ _
  rw [← hld, List.take_length]

lemma runChunks_eq_chunkListF {α : Type} (sid : String) (W : Nat)
    (hW : 0 < W) :
    ∀ (fuel k : Nat) (s : Session α),
    s.search_id = some sid →
    s.total_number_of_items = some (s.items.length : Int) →
    s.chunk_size = some (W : Int) →
    s.chunk_number = some (k : Int) →
    k * W < s.items.length →
    s.items.length ≤ (k + fuel) * W →
    runChunks fuel (some s) = chunkListF sid s.items W fuel k := by
  intro fuel
  induction fuel with
  | zero =>
    intro k s _ _ _ _ hk hcap
    rw [Nat.add_zero] at hcap
    omega
  | succ fuel ih =>
    intro k s hsid htot hsz hnum hk hcap
    by_cases hlast : s.items.length ≤ k * W + W
    · rw [runChunks, retrieve_step_last s W k htot hsz hnum hW hk hlast]
      rw [chunkListF, if_pos hk, if_pos (by omega)]
      simp only [runChunks_none, hsid, Option.getD_some, take_len_drop]
    · have hstep : (k + 1) * W = k * W + W := by ring
      rw [runChunks, retrieve_step_more s W k htot hsz hnum hW (by omega)]
      rw [chunkListF, if_pos hk, if_neg (by omega)]
      have hrec := ih (k + 1)
        { s with more_chunks_available := some true,
                 chunk_number := some ((k : Int) + 1) }
        hsid htot hsz (by norm_cast)
        (by show (k + 1) * W < s.items.length
            rw [hstep]; omega)
        (by show s.items.length ≤ (k + 1 + fuel) * W
            have hmul : (k + 1 + fuel) * W = (k + (fuel + 1)) * W := by ring
            rw [hmul]; exact hcap)
      rw [hsid] at hrec
      simp only [hrec, hsid, Option.getD_some]

lemma chunkListF_join {α : Type} (sid : String) (L : List α) (W : Nat) :
    ∀ fuel k, L.length ≤ (k + fuel) * W →
    ((chunkListF sid L W fuel k).map (fun c => c.items)).flatten =
      L.drop (k * W) := by
  intro fuel
  induction fuel with
  | zero =>
    intro k hcap
    rw [Nat.add_zero] at hcap
    rw [chunkListF]
    simp [List.drop_eq_nil_of_le hcap]
  | succ fuel ih =>
    intro k hcap
    rw [chunkListF]
    by_cases hk : k * W < L.length
    · rw [if_pos hk]
      by_cases hl : L.length - k * W ≤ W
      · rw [if_pos hl]
        simp [take_len_drop]
      · rw [if_neg hl]
        simp only [List.map_cons, List.flatten_cons]
        rw [ih (k + 1) (by
          have hmul : (k + 1 + fuel) * W = (k + (fuel + 1)) * W := by ring
          rw [hmul]; exact hcap)]
        have hstep : (k + 1) * W = k * W + W := by ring
        have hdd : (L.drop (k * W)).drop W = L.drop ((k + 1) * W) := by
          rw [List.drop_drop, hstep]
        rw [← hdd]
        exact List.take_append_drop W (L.drop (k * W))
    · rw [if_neg hk]
      simp [List.drop_eq_nil_of_le (by omega : L.length ≤ k * W)]

lemma chunkListF_length {α : Type} (sid : String) (L : List α) (W : Nat)
    (hW : 0 < W) :
    ∀ fuel k, L.length ≤ (k + fuel) * W →
    (chunkListF sid L W fuel k).length = (L.length - k * W + W - 1) / W := by
  intro fuel
  induction fuel with
  | zero =>
    intro k hcap
    rw [Nat.add_zero] at hcap
    rw [chunkListF]
    have hz : L.length - k * W = 0 := by omega
    rw [hz]
    simp only [List.length_nil]
    exact (Nat.div_eq_of_lt (by omega)).symm
  | succ fuel ih =>
    intro k hcap
    rw [chunkListF]
    by_cases hk : k * W < L.length
    · rw [if_pos hk]
      by_cases hl : L.length - k * W ≤ W
      · rw [if_pos hl]
        have h1 : 1 * W ≤ L.length - k * W + W - 1 := by omega
        have h2 : L.length - k * W + W - 1 < (1 + 1) * W := by omega
        simp [Nat.div_eq_of_lt_le h1 h2]
      · rw [if_neg hl]
        simp only [List.length_cons]
        rw [ih (k + 1) (by
          have hmul : (k + 1 + fuel) * W = (k + (fuel + 1)) * W := by ring
          rw [hmul]; exact hcap)]
        have hstep : (k + 1) * W = k * W + W := by ring
        rw [hstep]
        have h3 : L.length - (k * W + W) + W - 1 = L.length - k * W - 1 := by
          omega
        have h4 : L.length - k * W + W - 1 = (L.length - k * W - 1) + W := by
          omega
        rw [h3, h4, Nat.add_div_right _ hW]
    · rw [if_neg hk]
      have hz : L.length - k * W = 0 := by omega
      rw [hz]
      simp only [List.length_nil]
      exact (Nat.div_eq_of_lt (by omega)).symm

lemma chunkListF_numbers {α : Type} (sid : String) (L : List α) (W : Nat) :
    ∀ fuel k, (chunkListF sid L W fuel k).map (fun c => c.chunk_number) =
      (List.range (chunkListF sid L W fuel k).length).map
        (fun i : Nat => (k : Int) + (i : Int) + 1) := by
  intro fuel
  induction fuel with
  | zero => intro k; rw [chunkListF]; simp
  | succ fuel ih =>
    intro k
    rw [chunkListF]
    by_cases hk : k * W < L.length
    · rw [if_pos hk]
      by_cases hl : L.length - k * W ≤ W
      · rw [if_pos hl]
        have hr1 : List.range 1 = [0] := by decide
        simp [hr1]
      · rw [if_neg hl]
        simp only [List.map_cons, List.length_cons]
        rw [ih (k + 1), List.range_succ_eq_map, List.map_cons, List.map_map]
        have htail :
            List.map (fun i : Nat => ((k + 1 : Nat) : Int) + (i : Int) + 1)
              (List.range (chunkListF sid L W fuel (k + 1)).length) =
            List.map ((fun i : Nat => (k : Int) + (i : Int) + 1) ∘ Nat.succ)
              (List.range (chunkListF sid L W fuel (k + 1)).length) := by
          apply List.map_congr_left
          intro i _
          simp only [Function.comp_apply, Nat.succ_eq_add_one]
          push_cast
          ring
        rw [htail]
        norm_num
    · rw [if_neg hk]; simp

lemma chunkListF_last {α : Type} (sid : String) (L : List α) (W : Nat)
    (hW : 0 < W) :
    ∀ fuel k p, L.length ≤ (k + fuel) * W → k * W < L.length →
    (chunkListF sid L W fuel k).getLast? = some p →
    p.more_chunks_available = false ∧
    p.chunk_size = ((L.length - k * W : Nat) : Int) -
      (((chunkListF sid L W fuel k).length : Int) - 1) * (W : Int) := by
  intro fuel
  induction fuel with
  | zero =>
    intro k p hcap hk
    rw [Nat.add_zero] at hcap
    omega
  | succ fuel ih =>
    intro k p hcap hk hlastp
    rw [chunkListF] at hlastp ⊢
    rw [if_pos hk] at hlastp ⊢
    by_cases hl : L.length - k * W ≤ W
    · rw [if_pos hl] at hlastp ⊢
      simp only [List.getLast?_singleton, Option.some.injEq] at hlastp
      subst hlastp
      simp
    · rw [if_neg hl] at hlastp ⊢
      have hcap2 : L.length ≤ (k + 1 + fuel) * W := by
        have hmul : (k + 1 + fuel) * W = (k + (fuel + 1)) * W := by ring
        rw [hmul]; exact hcap
      have hk2 : (k + 1) * W < L.length := by
        have hstep : (k + 1) * W = k * W + W := by ring
        rw [hstep]; omega
      have hne : chunkListF sid L W fuel (k + 1) ≠ [] := by
        intro hemp
        have := chunkListF_length sid L W hW fuel (k + 1) hcap2
        rw [hemp] at this
        simp only [List.length_nil] at this
        have hpos : 0 < (L.length - (k + 1) * W + W - 1) / W := by
          apply Nat.div_pos (by omega) hW
        omega
      cases htl : chunkListF sid L W fuel (k + 1) with
      | nil => exact absurd htl hne
      | cons b t =>
        rw [htl] at hlastp
        have hlast2 : (chunkListF sid L W fuel (k + 1)).getLast? = some p := by
          rw [htl]
          exact hlastp
        obtain ⟨hmore2, hsize2⟩ := ih (k + 1) p hcap2 hk2 hlast2
        refine ⟨hmore2, ?_⟩
        rw [hsize2, htl]
        simp only [List.length_cons]
        have hstep : (k + 1) * W = k * W + W := by ring
        have hle1 : k * W + W ≤ L.length := by omega
        have hcast1 : ((L.length - (k + 1) * W : Nat) : Int) =
            (L.length : Int) - (k : Int) * (W : Int) - (W : Int) := by
          rw [hstep]
          push_cast [Nat.cast_sub hle1]
          ring
        have hcast2 : ((L.length - k * W : Nat) : Int) =
            (L.length : Int) - (k : Int) * (W : Int) := by
          push_cast [Nat.cast_sub (by omega : k * W ≤ L.length)]
          ring
        rw [hcast1, hcast2]
        push_cast
        ring

lemma chunkListF_ne_nil {α : Type} (sid : String) (L : List α) (W : Nat)
    (hW : 0 < W) (fuel k : Nat) (hcap : L.length ≤ (k + fuel) * W)
    (hk : k * W < L.length) : chunkListF sid L W fuel k ≠ [] := by
  intro hemp
  have hlen := chunkListF_length sid L W hW fuel k hcap
  rw [hemp] at hlen
  simp only [List.length_nil] at hlen
  have hpos : 0 < (L.length - k * W + W - 1) / W := by
    apply Nat.div_pos (by omega) hW
  omega

/-- A call to `retrieve_next_search_chunk` only hands out items of the stored
list and leaves behind (at most) a session holding the very same list. -/
lemma retrieve_preserves_items {α : Type} (L : List α) (s : Session α)
    (hsL : s.items = L) (r : Response α) (st2 : Option (Session α))
    (hcall : retrieve_next_search_chunk (some s) = some (r, st2)) :
    (∀ x ∈ respItems r, x ∈ L) ∧ (∀ s2 ∈ st2, s2.items = L) := by
  cases htot : s.total_number_of_items with
  | none =>
    simp only [retrieve_next_search_chunk, htot, Option.some.injEq,
      Prod.mk.injEq] at hcall
    obtain ⟨hr, hst⟩ := hcall
    subst hr; subst hst
    simp [respItems]
  | some total =>
    cases hsz : s.chunk_size with
    | none =>
      simp only [retrieve_next_search_chunk, htot, hsz, Option.some.injEq,
        Prod.mk.injEq] at hcall
      obtain ⟨hr, hst⟩ := hcall
      subst hr; subst hst
      simp [respItems]
    | some size =>
      cases hnum : s.chunk_number with
      | none =>
        simp only [retrieve_next_search_chunk, htot, hsz, hnum,
          Option.some.injEq, Prod.mk.injEq] at hcall
        obtain ⟨hr, hst⟩ := hcall
        subst hr; subst hst
        simp [respItems]
      | some num =>
        simp only [retrieve_next_search_chunk, htot, hsz, hnum] at hcall
        split_ifs at hcall with hval hrem hmore
        · simp only [Option.some.injEq, Prod.mk.injEq] at hcall
          obtain ⟨hr, hst⟩ := hcall
          subst hr; subst hst
          simp [respItems]
        · split at hcall
          · rename_i chunk_items hps
            simp only [Option.some.injEq, Prod.mk.injEq] at hcall
            obtain ⟨hr, hst⟩ := hcall
            subst hr; subst hst
            constructor
            · intro x hx
              rw [← hsL]
              exact pySlice_mem s.items _ _ _ hps x hx
            · intro s2 hs2
              simp only [Option.mem_def, Option.some.injEq] at hs2
              subst hs2
              simpa using hsL
          · cases hcall
        · split at hcall
          · rename_i chunk_items hps
            simp only [Option.some.injEq, Prod.mk.injEq] at hcall
            obtain ⟨hr, hst⟩ := hcall
            subst hr; subst hst
            constructor
            · intro x hx
              rw [← hsL]
              exact pySlice_mem s.items _ _ _ hps x hx
            · intro s2 hs2
              simp at hs2
          · cases hcall
        · simp only [Option.some.injEq, Prod.mk.injEq] at hcall
          obtain ⟨hr, hst⟩ := hcall
          subst hr; subst hst
          simp [respItems]

/-- Any session left behind by a successful `search_for_item` holds exactly
the freshly searched item list. -/
lemma search_state_items {α : Type} (L : List α) (m : Int) (sid : String)
    (st : Option (Session α)) (r : Response α) (stNew : Option (Session α))
    (h : search_for_item m (.ok L) sid st = some (r, stNew)) :
    ∀ s2 ∈ stNew, s2.items = L := by
  simp only [search_for_item] at h
  split_ifs at h
  all_goals
    first
    | exact (retrieve_preserves_items L _ rfl r stNew h).2
    | (simp only [Option.some.injEq, Prod.mk.injEq] at h
       obtain ⟨hr, hst⟩ := h
       subst hst
       intro s2 hs2
       simp at hs2)

/-- Claim C2, failing input: a stored session whose `total_number_of_items`
(4) exceeds the actual stored item count (1) passes the structural validation
and is then sliced past the end of its item list, so the code raises
IndexError (modelled by `none`) instead of returning a response document. -/
theorem C2_inconsistent_total_raises :
    retrieve_next_search_chunk (some
      ({ search_id := some "c2",
         total_number_of_items := some 4,
         chunk_size := some 2,
         chunk_number := some 1,
         more_chunks_available := some true,
         items := [7] } : Session Nat)) = none := by
  rfl

/-- Claim C4, failing input: `search_for_item` with `max_chunk_size = 0` on a
one-item result delivers the whole list in a single page but reports
`chunk_size = 0`, although the spec (and the function docstring, which says
chunk_size is the number of items in the current chunk) requires
`chunk_size = total = 1`. -/
theorem C4_window_zero_chunk_size :
    search_for_item 0 (Except.ok [7]) "s4" (none : Option (Session Nat)) =
      some (Response.chunk ⟨"s4", 1, 0, 1, false, [7]⟩, none) := by
  rfl

/-- Claim C5, counterexample: with no stored session the code answers with
the empty document `\x7b\x7d`, not with a six-field zeroed ChunkView, so the
wire-shape fields are not all present as the claim states. -/
theorem C5_counterexample :
    retrieve_next_search_chunk (none : Option (Session Nat)) ≠
      some (Response.chunk ⟨"", 0, 0, 0, false, []⟩, none) := by
  decide

/-- Claim C5 (amended): whenever no session is stored,
`retrieve_next_search_chunk` returns the empty document with no fields and
leaves the state session-free, so every repetition returns the same empty
document; it never raises. -/
theorem C5_empty_state_response {α : Type} :
    retrieve_next_search_chunk (none : Option (Session α)) =
      some (Response.emptyDoc, none) := rfl

/-- Claim C6, counterexample: a stored session with bad control values but a
present search_id is answered with a zeroed ChunkView that carries the stored
search_id, which differs from the claimed response (search_id `""`), and also
differs from the no-session response (the empty document). -/
theorem C6_counterexample :
    retrieve_next_search_chunk (some
      ({ search_id := some "c6",
         total_number_of_items := some 0,
         chunk_size := some 2,
         chunk_number := some 0,
         items := [5] } : Session Nat)) =
      some (Response.chunk ⟨"c6", 0, 0, 0, false, []⟩, none) ∧
    (Response.chunk (⟨"c6", 0, 0, 0, false, []⟩ : ChunkView Nat)) ≠
      Response.chunk ⟨"", 0, 0, 0, false, []⟩ ∧
    (retrieve_next_search_chunk (some
      ({ search_id := some "c6",
         total_number_of_items := some 0,
         chunk_size := some 2,
         chunk_number := some 0,
         items := [5] } : Session Nat))).map Prod.fst ≠
      (retrieve_next_search_chunk (none : Option (Session Nat))).map
        Prod.fst := by
  refine ⟨rfl, by decide, by decide⟩

/-- Claim C6 (amended): a stored session failing structural validation is
cleared and answered without an exception: when a control field
(total_number_of_items, chunk_size, chunk_number) is missing the response is
the empty document; when the control fields are present but a value is bad
(total or chunk_size not positive, chunk_number negative, or the item list
empty) the response is a zeroed ChunkView carrying the stored search_id when
present and `""` otherwise. -/
theorem C6_validation_self_heal {α : Type} (s : Session α) :
    (s.total_number_of_items = none ∨ s.chunk_size = none ∨
        s.chunk_number = none →
      retrieve_next_search_chunk (some s) =
        some (Response.emptyDoc, none)) ∧
    (∀ total size num, s.total_number_of_items = some total →
      s.chunk_size = some size → s.chunk_number = some num →
      (total ≤ 0 ∨ (s.items.length : Int) ≤ 0 ∨ size ≤ 0 ∨ num < 0) →
      retrieve_next_search_chunk (some s) =
        some (Response.chunk ⟨s.search_id.getD "", 0, 0, 0, false, []⟩,
          none)) := by
  constructor
  · intro hmiss
    cases htot : s.total_number_of_items with
    | none => simp [retrieve_next_search_chunk, htot]
    | some t =>
      cases hsz : s.chunk_size with
      | none => simp [retrieve_next_search_chunk, htot, hsz]
      | some w =>
        cases hnum : s.chunk_number with
        | none => simp [retrieve_next_search_chunk, htot, hsz, hnum]
        | some n =>
          rw [htot, hsz, hnum] at hmiss
          rcases hmiss with h | h | h <;> simp at h
  · intro total size num htot hsz hnum hbad
    simp only [retrieve_next_search_chunk, htot, hsz, hnum]
    rw [if_pos hbad]

/-- Witness for C6: a concrete corrupt session (empty item list) is cleared
and answered with the zeroed ChunkView. -/
theorem C6_validation_self_heal_witness :
    retrieve_next_search_chunk (some
      ({ total_number_of_items := some 3,
         chunk_size := some 2,
         chunk_number := some 0,
         items := [] } : Session Nat)) =
      some (Response.chunk ⟨"", 0, 0, 0, false, []⟩, none) :=
  (C6_validation_self_heal _).2 3 2 0 rfl rfl rfl (by decide)

/-- Claim C7: on a structurally valid stored session whose
`chunk_number * chunk_size` already covers `total_number_of_items`, the call
clears the session and returns a ChunkView carrying the stored search_id and
total, with `chunk_size = 0`, `more_chunks_available = false` and no
items. -/
theorem C7_soft_error {α : Type} (s : Session α) (sid : String)
    (total size num : Int)
    (hsid : s.search_id = some sid)
    (htot : s.total_number_of_items = some total)
    (hsz : s.chunk_size = some size)
    (hnum : s.chunk_number = some num)
    (htpos : 0 < total) (hspos : 0 < size) (hnn : 0 ≤ num)
    (hitems : s.items ≠ [])
    (hcov : total ≤ num * size) :
    retrieve_next_search_chunk (some s) =
      some (Response.chunk ⟨sid, total, 0, num, false, []⟩, none) := by
  have hlen : 0 < (s.items.length : Int) := by
    exact_mod_cast List.length_pos.mpr hitems
  simp only [retrieve_next_search_chunk, htot, hsz, hnum]
  rw [if_neg (by omega), if_neg (by omega), hsid]
  rfl

/-- Witness for C7: a concrete exhausted-but-called-again session. -/
theorem C7_soft_error_witness :
    retrieve_next_search_chunk (some
      ({ search_id := some "w7",
         total_number_of_items := some 4,
         chunk_size := some 2,
         chunk_number := some 2,
         more_chunks_available := some true,
         items := [9, 9, 9, 9] } : Session Nat)) =
      some (Response.chunk ⟨"w7", 4, 0, 2, false, []⟩, none) :=
  C7_soft_error _ "w7" 4 2 2 rfl rfl rfl rfl (by decide) (by decide)
    (by decide) (by decide) (by decide)

/-- Claim C9: when the upstream catalog query fails, `search_for_item`
returns an error document (never an exception), creates no session, and
leaves the stored state unchanged, so a following
`retrieve_next_search_chunk` behaves exactly as if the failed search had not
happened. -/
theorem C9_upstream_failure {α : Type} (max_chunk_size : Int) (err : String)
    (search_id : String) (st : Option (Session α)) :
    search_for_item max_chunk_size (.error err) search_id st =
      some (Response.error
        ("ERROR: failed to retrieve item list because: " ++ err), st) := rfl

/-- Claim C8: a successful `search_for_item` discards the prior session
unconditionally — its result does not depend on the previously stored state —
any session it leaves behind holds exactly the new search's item list, and
every later `retrieve_next_search_chunk` on a session holding that list
hands out only items of that list while preserving it, so no item of a
discarded search is ever delivered again. -/
theorem C8_single_session {α : Type} (L : List α) (m : Int) (sid : String)
    (stPrior : Option (Session α)) :
    search_for_item m (.ok L) sid stPrior =
      search_for_item m (.ok L) sid none ∧
    (∀ r stNew, search_for_item m (.ok L) sid stPrior = some (r, stNew) →
      ∀ s2 ∈ stNew, s2.items = L) ∧
    (∀ s : Session α, s.items = L → ∀ r st2,
      retrieve_next_search_chunk (some s) = some (r, st2) →
      (∀ x ∈ respItems r, x ∈ L) ∧ ∀ s2 ∈ st2, s2.items = L) :=
  ⟨rfl, fun r stNew h => search_state_items L m sid stPrior r stNew h,
   fun s hs r st2 h => retrieve_preserves_items L s hs r st2 h⟩

/-- Witness for C8: the page delivered from a session over [5, 6, 7] only
contains items of [5, 6, 7], applied with a stale prior session present. -/
theorem C8_single_session_witness :
    ∀ x ∈ respItems (Response.chunk
      (⟨"x8", 3, 2, 1, true, [5, 6]⟩ : ChunkView Nat)), x ∈ [5, 6, 7] :=
  ((C8_single_session [5, 6, 7] 2 "x8" (some { items := [0] })).2.2
    { search_id := some "x8"
      total_number_of_items := some 3
      chunk_size := some 2
      chunk_number := some 0
      more_chunks_available := some true
      items := [5, 6, 7] } rfl
    (Response.chunk ⟨"x8", 3, 2, 1, true, [5, 6]⟩)
    (some { search_id := some "x8"
            total_number_of_items := some 3
            chunk_size := some 2
            chunk_number := some 1
            more_chunks_available := some true
            items := [5, 6, 7] })
    (by decide)).1

/-- Claim C10: delivering a non-final page (remaining items strictly greater
than the window) mutates only `chunk_number` (incremented by exactly one) and
`more_chunks_available` in the stored session; the stored `search_id`,
`total_number_of_items`, `chunk_size` and `items` are left unchanged. -/
theorem C10_frame {α : Type} (s : Session α) (W k : Nat)
    (htot : s.total_number_of_items = some (s.items.length : Int))
    (hsz : s.chunk_size = some (W : Int))
    (hnum : s.chunk_number = some (k : Int))
    (hW : 0 < W)
    (hmore : k * W + W < s.items.length) :
    retrieve_next_search_chunk (some s) =
      some (Response.chunk ⟨s.search_id.getD "", (s.items.length : Int),
          (W : Int), (k : Int) + 1, true, (s.items.drop (k * W)).take W⟩,
        some { s with chunk_number := some ((k : Int) + 1),
                      more_chunks_available := some true }) :=
  retrieve_step_more s W k htot hsz hnum hW hmore

/-- Witness for C10: a concrete mid-pagination step over five items with
window two changes only the counter and the more flag. -/
theorem C10_frame_witness :
    retrieve_next_search_chunk (some
      ({ search_id := some "w10",
         total_number_of_items := some 5,
         chunk_size := some 2,
         chunk_number := some 0,
         more_chunks_available := some true,
         items := [1, 2, 3, 4, 5] } : Session Nat)) =
      some (Response.chunk ⟨"w10", 5, 2, 1, true, [1, 2]⟩,
        some { search_id := some "w10"
               total_number_of_items := some 5
               chunk_size := some 2
               chunk_number := some 1
               more_chunks_available := some true
               items := [1, 2, 3, 4, 5] }) :=
  C10_frame ({ search_id := some "w10"
               total_number_of_items := some 5
               chunk_size := some 2
               chunk_number := some 0
               more_chunks_available := some true
               items := [1, 2, 3, 4, 5] } : Session Nat) 2 0
    rfl rfl rfl (by decide) (by decide)

/-- On a splitting search (`0 < W < N`), `search_for_item` returns the first
page `L.take W` and stores a session at delivered-counter 1. -/
lemma search_first_page {α : Type} (L : List α) (W : Nat) (sid : String)
    (st0 : Option (Session α)) (hW : 0 < W) (hWN : W < L.length) :
    search_for_item (W : Int) (.ok L) sid st0 =
      some (Response.chunk ⟨sid, (L.length : Int), (W : Int), 1, true,
          L.take W⟩,
        some ({ search_id := some sid
                total_number_of_items := some (L.length : Int)
                chunk_size := some (W : Int)
                chunk_number := some 1
                more_chunks_available := some true
                items := L } : Session α)) := by
  have hWI : (0 : Int) < (W : Int) := by exact_mod_cast hW
  have hWNI : (W : Int) < (L.length : Int) := by exact_mod_cast hWN
  have hsearch : search_for_item (W : Int) (.ok L) sid st0 =
      retrieve_next_search_chunk (some
        ({ search_id := some sid
           total_number_of_items := some (L.length : Int)
           chunk_size := some (W : Int)
           chunk_number := some 0
           more_chunks_available := some true
           items := L } : Session α)) := by
    simp only [search_for_item]
    rw [if_pos ⟨hWI, hWNI⟩, if_pos hWNI]
  have hstep := retrieve_step_more
    ({ search_id := some sid
       total_number_of_items := some (L.length : Int)
       chunk_size := some (W : Int)
       chunk_number := some 0
       more_chunks_available := some true
       items := L } : Session α) W 0 rfl rfl rfl hW
    (by show 0 * W + W < L.length; omega)
  rw [hsearch, hstep]
  simp

/-- After the first page of a splitting search, the remaining deliveries are
exactly the pages of `chunkListF` from counter 1. -/
lemma runChunks_after_first {α : Type} (L : List α) (W : Nat) (sid : String)
    (hW : 0 < W) (hWN : W < L.length) (fuel : Nat)
    (hcap : L.length ≤ (fuel + 1) * W) :
    runChunks fuel (some ({ search_id := some sid
                            total_number_of_items := some (L.length : Int)
                            chunk_size := some (W : Int)
                            chunk_number := some 1
                            more_chunks_available := some true
                            items := L } : Session α)) =
      chunkListF sid L W fuel 1 := by
  have hsim := runChunks_eq_chunkListF sid W hW fuel 1
    ({ search_id := some sid
       total_number_of_items := some (L.length : Int)
       chunk_size := some (W : Int)
       chunk_number := some 1
       more_chunks_available := some true
       items := L } : Session α)
    rfl rfl rfl rfl
    (by show 1 * W < L.length; omega)
    (by show L.length ≤ (1 + fuel) * W
        have h1 : (1 + fuel) * W = (fuel + 1) * W := by ring
        rw [h1]; exact hcap)
  exact hsim

/-- Claim C1: for `0 < W < N`, the first page returned by `search_for_item`
followed by the pages delivered by repeated `retrieve_next_search_chunk`
calls concatenates exactly (in order, no duplicates, no omissions) to the
original item list. -/
theorem C1_partition {α : Type} (L : List α) (W : Nat) (sid : String)
    (st0 : Option (Session α)) (hW : 0 < W) (hWN : W < L.length) :
    ∃ c1 st1, search_for_item (W : Int) (.ok L) sid st0 =
        some (Response.chunk c1, st1) ∧
      ∀ fuel, L.length ≤ (fuel + 1) * W →
        ((c1 :: runChunks fuel st1).map (fun c => c.items)).flatten = L := by
  refine ⟨⟨sid, (L.length : Int), (W : Int), 1, true, L.take W⟩,
    some ({ search_id := some sid
            total_number_of_items := some (L.length : Int)
            chunk_size := some (W : Int)
            chunk_number := some 1
            more_chunks_available := some true
            items := L } : Session α),
    search_first_page L W sid st0 hW hWN, ?_⟩
  intro fuel hcap
  have hcap1 : L.length ≤ (1 + fuel) * W := by
    have h1 : (1 + fuel) * W = (fuel + 1) * W := by ring
    rw [h1]; exact hcap
  rw [List.map_cons, List.flatten_cons,
    runChunks_after_first L W sid hW hWN fuel hcap,
    chunkListF_join sid L W fuel 1 hcap1, one_mul]
  exact List.take_append_drop W L

/-- Witness for C1: five items with window two concatenate back to the
original list. -/
theorem C1_partition_witness :
    ∃ c1 st1,
      search_for_item (((2 : Nat)) : Int) (Except.ok [1, 2, 3, 4, 5]) "w1"
        (none : Option (Session Nat)) = some (Response.chunk c1, st1) ∧
      ∀ fuel, ([1, 2, 3, 4, 5] : List Nat).length ≤ (fuel + 1) * 2 →
        ((c1 :: runChunks fuel st1).map (fun c => c.items)).flatten =
          [1, 2, 3, 4, 5] :=
  C1_partition [1, 2, 3, 4, 5] 2 "w1" none (by decide) (by decide)

/-- Claim C3: for `0 < W < N`, exactly `ceil(N / W)` pages are delivered (the
first page plus the later calls, however many more are attempted), the
delivered one-based chunk numbers are `1, 2, ...` in order (each one more
than the previously stored counter), and the final page has
`more_chunks_available = false` with `chunk_size = N - W * (ceil(N/W) - 1)`. -/
theorem C3_termination {α : Type} (L : List α) (W : Nat) (sid : String)
    (st0 : Option (Session α)) (hW : 0 < W) (hWN : W < L.length) :
    ∃ c1 st1, search_for_item (W : Int) (.ok L) sid st0 =
        some (Response.chunk c1, st1) ∧
      ∀ fuel, L.length ≤ (fuel + 1) * W →
        (c1 :: runChunks fuel st1).length = (L.length + W - 1) / W ∧
        (c1 :: runChunks fuel st1).map (fun c => c.chunk_number) =
          (List.range ((L.length + W - 1) / W)).map
            (fun i : Nat => (i : Int) + 1) ∧
        ∃ p, (c1 :: runChunks fuel st1).getLast? = some p ∧
          p.more_chunks_available = false ∧
          p.chunk_size = (L.length : Int) -
            (W : Int) * ((((L.length + W - 1) / W : Nat) : Int) - 1) := by
  refine ⟨⟨sid, (L.length : Int), (W : Int), 1, true, L.take W⟩,
    some ({ search_id := some sid
            total_number_of_items := some (L.length : Int)
            chunk_size := some (W : Int)
            chunk_number := some 1
            more_chunks_available := some true
            items := L } : Session α),
    search_first_page L W sid st0 hW hWN, ?_⟩
  intro fuel hcap
  have hcap1 : L.length ≤ (1 + fuel) * W := by
    have h1 : (1 + fuel) * W = (fuel + 1) * W := by ring
    rw [h1]; exact hcap
  have hrun := runChunks_after_first L W sid (α := α) hW hWN fuel hcap
  have hk1 : 1 * W < L.length := by omega
  have hTlen : (chunkListF (α := α) sid L W fuel 1).length =
      (L.length - 1 * W + W - 1) / W :=
    chunkListF_length sid L W hW fuel 1 hcap1
  have h2 : L.length - 1 * W + W - 1 = L.length - 1 := by omega
  have h3 : L.length + W - 1 = (L.length - 1) + W := by omega
  have hceil : (L.length + W - 1) / W =
      (chunkListF (α := α) sid L W fuel 1).length + 1 := by
    rw [h3, Nat.add_div_right _ hW, hTlen, h2]
  refine ⟨?_, ?_, ?_⟩
  · rw [List.length_cons, hrun, hceil]
  · rw [List.map_cons, hrun, hceil, List.range_succ_eq_map, List.map_cons,
      List.map_map, chunkListF_numbers sid L W fuel 1]
    have htail :
        List.map (fun i : Nat => ((1 : Nat) : Int) + (i : Int) + 1)
          (List.range (chunkListF (α := α) sid L W fuel 1).length) =
        List.map ((fun i : Nat => (i : Int) + 1) ∘ Nat.succ)
          (List.range (chunkListF (α := α) sid L W fuel 1).length) := by
      apply List.map_congr_left
      intro i _
      simp only [Function.comp_apply, Nat.succ_eq_add_one]
      push_cast
      ring
    rw [htail]
    norm_num
  · have hne : chunkListF (α := α) sid L W fuel 1 ≠ [] :=
      chunkListF_ne_nil sid L W hW fuel 1 hcap1 hk1
    cases htl : chunkListF (α := α) sid L W fuel 1 with
    | nil => exact absurd htl hne
    | cons b t =>
      have hex : ∃ p, ((b :: t).getLast?) = some p :=
        ⟨(b :: t).getLast (by simp), (List.getLast?_eq_getLast _ _).symm⟩
      obtain ⟨p, hp⟩ := hex
      have hplast : (chunkListF (α := α) sid L W fuel 1).getLast? = some p :=
        by rw [htl]; exact hp
      obtain ⟨hmore_p, hsize_p⟩ :=
        chunkListF_last sid L W hW fuel 1 p hcap1 hk1 hplast
      refine ⟨p, ?_, hmore_p, ?_⟩
      · rw [hrun, htl]
        exact hp
      · rw [hsize_p, hceil]
        have hle : 1 * W ≤ L.length := by omega
        push_cast [Nat.cast_sub hle]
        ring

/-- Witness for C3: five items with window two give three pages numbered
1, 2, 3, the last with `more_chunks_available = false` and one leftover
item. -/
theorem C3_termination_witness :
    ∃ c1 st1,
      search_for_item (((2 : Nat)) : Int) (Except.ok [1, 2, 3, 4, 5]) "w3"
        (none : Option (Session Nat)) = some (Response.chunk c1, st1) ∧
      ∀ fuel, ([1, 2, 3, 4, 5] : List Nat).length ≤ (fuel + 1) * 2 →
        (c1 :: runChunks fuel st1).length =
          (([1, 2, 3, 4, 5] : List Nat).length + 2 - 1) / 2 ∧
        (c1 :: runChunks fuel st1).map (fun c => c.chunk_number) =
          (List.range ((([1, 2, 3, 4, 5] : List Nat).length + 2 - 1) / 2)).map
            (fun i : Nat => (i : Int) + 1) ∧
        ∃ p, (c1 :: runChunks fuel st1).getLast? = some p ∧
          p.more_chunks_available = false ∧
          p.chunk_size = (([1, 2, 3, 4, 5] : List Nat).length : Int) -
            ((2 : Nat) : Int) *
              ((((([1, 2, 3, 4, 5] : List Nat).length + 2 - 1) / 2 : Nat) :
                Int) - 1) :=
  C3_termination [1, 2, 3, 4, 5] 2 "w3" none (by decide) (by decide)

